import Mathlib

/-!
Shallow embedding of the paper-DJ-controller core: the interaction-tracking
state machines (src/app/modules/interaction.py), the MIDI protocol mapper
(src/app/modules/midi_controller.py), and the calibration entry point
(src/app/main.py, App.calibrate).  Pixel-level OpenCV operations (color
conversion, masking, contour extraction, moments) are abstracted as data that
the frame supplies per region; the arithmetic and control flow that the
Python source performs on that data is translated directly.
-/

/-- Python `int()` applied to a (rational-valued) quotient: truncation toward
zero, i.e. floor for nonnegative arguments and ceiling for negative ones. -/
def truncInt (q : ℚ) : Int :=
  if 0 ≤ q then ⌊q⌋ else ⌈q⌉

/-- State of a button event, `'pressed'` or `'released'` in the source. -/
inductive ButtonState where
  | pressed
  | released
deriving DecidableEq, Repr

/-- An event dictionary produced by `InteractionTracking`:
`{'type': 'button', 'name': n, 'state': s}` or
`{'type': 'fader', 'name': n, 'value': v}`. -/
inductive Event where
  | button (name : String) (state : ButtonState)
  | fader (name : String) (value : Int)
deriving DecidableEq, Repr

/-- The `'name'` entry of an event dictionary. -/
def Event.name : Event → String
  | .button n _ => n
  | .fader n _ => n

/-- A region of interest `(x, y, w, h)` in canonical-frame coordinates. -/
structure Roi where
  x : Int
  y : Int
  w : Int
  h : Int
deriving DecidableEq, Repr

/-- A contour found by `cv2.findContours` on the marker-color mask, abstracted
to the quantities the source reads off it: its `cv2.contourArea` and the
moments `m00` (area) and `m01` (first moment in y) from `cv2.moments`. -/
structure Blob where
  area : ℚ
  m00 : ℚ
  m01 : ℚ
deriving DecidableEq, Repr

/-- Button control state: `{'pressed': ..., 'ref_brightness': ...}`. -/
structure ButtonCtl where
  pressed : Bool
  ref_brightness : ℚ
deriving DecidableEq, Repr

/-- Fader control state: the `'value'` entry (the stored HSV marker color
bounds are constants and are folded into the frame's contour data). -/
structure FaderCtl where
  value : Int
deriving DecidableEq, Repr

/-- Per-region control state, the shape `_initialize_control_states` gives
each entry of `control_states` depending on the region name. -/
inductive CtlState where
  | button (b : ButtonCtl)
  | fader (f : FaderCtl)
  | knob (angle prev_angle : Int)
  | empty
deriving DecidableEq, Repr

/-- Substring test on character lists, used to embed Python `sub in s`. -/
def listContainsSub (sub : List Char) : List Char → Bool
  | [] => sub.isEmpty
  | c :: rest => sub.isPrefixOf (c :: rest) || listContainsSub sub rest

/-- Python `sub in s` for strings. -/
def strContains (sub s : String) : Bool :=
  listContainsSub sub.data s.data

/-- `InteractionTracking._initialize_control_states`, per region name:
`'button' in name` gives `{'pressed': False, 'ref_brightness': 128}`,
`'fader' in name` gives `{'value': 0, ...}`, `'knob' in name` gives
`{'angle': 0, 'prev_angle': 0}`, otherwise the entry stays `{}`. -/
def init_control_state (name : String) : CtlState :=
  if strContains "button" name then .button { pressed := false, ref_brightness := 128 }
  else if strContains "fader" name then .fader { value := 0 }
  else if strContains "knob" name then .knob 0 0
  else .empty

/-- A rectified (canonical) frame, abstracted to what the per-region pixel
processing of `interaction.py` extracts from it: the mean gray value of a
region's crop (`np.mean(roi_gray)`) and the contours that marker-color
segmentation finds in the region's crop. -/
structure Frame where
  brightness : Roi → ℚ
  contours : Roi → List Blob

/-- `InteractionTracking.track_button`: compare the region's mean brightness
against `ref_brightness * threshold_factor`; flip to pressed and emit a
`pressed` event on a drop below the threshold, flip to released and emit a
`released` event on a return to at-or-above the threshold, else no event. -/
def track_button (name : String) (threshold_factor : ℚ) (brightness : ℚ)
    (st : ButtonCtl) : ButtonCtl × Option Event :=
  if brightness < st.ref_brightness * threshold_factor ∧ st.pressed = false then
    ({ st with pressed := true }, some (.button name .pressed))
  else if st.ref_brightness * threshold_factor ≤ brightness ∧ st.pressed = true then
    ({ st with pressed := false }, some (.button name .released))
  else (st, none)

/-- Python `max(contours, key=cv2.contourArea)` starting from a first
candidate: keeps the current best and replaces it only on a strictly larger
area, so the first contour of maximal area wins. -/
def maxByArea : Blob → List Blob → Blob
  | c, [] => c
  | c, c2 :: rest => maxByArea (if c.area < c2.area then c2 else c) rest

/-- Modelled from the spec: the target range of `np.interp` at
src/app/modules/interaction.py line 108 is missing from the snapshot (the
call reads `np.interp(cY, [0, fader_height],)`); the spec fixes it as
"Map that coordinate linearly from the region's pixel extent to the integer
range [0,127], clamped to the range's bounds", matching the function's
docstring ("value: 0-127").  `np.interp(cY, [0, H], [0, 127])` clamps below
0 to 0 and above `H` to 127 and interpolates linearly in between; the
result is then truncated by Python `int()`. -/
def interp0127 (cY : Int) (fader_height : Int) : Int :=
  if cY ≤ 0 then 0
  else if fader_height ≤ cY then 127
  else truncInt ((127 * cY : ℚ) / (fader_height : ℚ))

/-- `InteractionTracking.track_fader`: no contours means no event; take the
largest contour, bail out on a zero `m00` moment; otherwise compute the
centroid row `cY = int(m01/m00)`, map it to `[0,127]`, and emit an event
(updating the stored value) only when the mapped value differs from the
stored one. -/
def track_fader (name : String) (fader_height : Int) (contours : List Blob)
    (st : FaderCtl) : FaderCtl × Option Event :=
  match contours with
  | [] => (st, none)
  | c0 :: rest =>
    let c := maxByArea c0 rest
    if c.m00 = 0 then (st, none)
    else
      let cY := truncInt (c.m01 / c.m00)
      let value := interp0127 cY fader_height
      if value ≠ st.value then ({ value := value }, some (.fader name value))
      else (st, none)

/-- One region's step inside `InteractionTracking.process_frame`: dispatch on
the region name (`'button' in name` first, then `'fader' in name`), run the
matching tracker on the region's crop data with the default threshold factor
0.7, and record the tracker's state update into the state map. -/
def process_region (frame : Frame) (states : String → CtlState) (name : String)
    (roi : Roi) : (String → CtlState) × Option Event :=
  if strContains "button" name then
    match states name with
    | .button b =>
      let r := track_button name (7/10) (frame.brightness roi) b
      (fun n => if n = name then .button r.1 else states n, r.2)
    | _ => (states, none)
  else if strContains "fader" name then
    match states name with
    | .fader f =>
      let r := track_fader name roi.h (frame.contours roi) f
      (fun n => if n = name then .fader r.1 else states n, r.2)
    | _ => (states, none)
  else (states, none)

/-- `InteractionTracking.process_frame`: iterate the configured regions in
configuration order, run each region's tracker, and append each emitted
event to the result list in that order. -/
def process_frame (frame : Frame) :
    List (String × Roi) → (String → CtlState) → (String → CtlState) × List Event
  | [], states => (states, [])
  | (name, roi) :: rest, states =>
    let r := process_region frame states name roi
    let r2 := process_frame frame rest r.1
    (r2.1, r.2.toList ++ r2.2)

/-- `InteractionTracking.update_reference_brightness`: for every configured
region whose name contains `'button'`, overwrite its `ref_brightness` with
the mean gray value of the region's crop. -/
def update_reference_brightness (frame : Frame) :
    List (String × Roi) → (String → CtlState) → (String → CtlState)
  | [], states => states
  | (name, roi) :: rest, states =>
    let states2 : String → CtlState :=
      if strContains "button" name then
        fun n => if n = name then
            (match states name with
             | .button b => .button { b with ref_brightness := frame.brightness roi }
             | s => s)
          else states n
      else states
    update_reference_brightness frame rest states2

/-- Repeated `track_button` calls for one region over a sequence of frames,
each frame given by its mean brightness; collects the emitted events. -/
def run_button (name : String) (tf : ℚ) :
    ButtonCtl → List ℚ → ButtonCtl × List Event
  | st, [] => (st, [])
  | st, b :: rest =>
    let r := track_button name tf b st
    let r2 := run_button name tf r.1 rest
    (r2.1, r.2.toList ++ r2.2)

/-- Repeated `track_fader` calls for one region over a sequence of frames,
each frame given by the contour list its crop segments to. -/
def run_fader (name : String) (fader_height : Int) :
    FaderCtl → List (List Blob) → FaderCtl × List Event
  | st, [] => (st, [])
  | st, cs :: rest =>
    let r := track_fader name fader_height cs st
    let r2 := run_fader name fader_height r.1 rest
    (r2.1, r.2.toList ++ r2.2)

/-- An entry of `MidiController.control_mapping`:
`{'type': 'note', 'channel': c, 'note': n}` or
`{'type': 'cc', 'channel': c, 'control': n}`. -/
inductive MapEntry where
  | note (channel note : Int)
  | cc (channel control : Int)
deriving DecidableEq, Repr

/-- `MidiController._get_default_mapping`. -/
def default_mapping : String → Option MapEntry := fun name =>
  if name = "play_button_1" then some (.note 1 60)
  else if name = "play_button_2" then some (.note 2 60)
  else if name = "crossfader" then some (.cc 1 10)
  else if name = "volume_fader_1" then some (.cc 1 11)
  else if name = "volume_fader_2" then some (.cc 2 11)
  else if name = "eq_high_knob_1" then some (.cc 1 20)
  else if name = "eq_mid_knob_1" then some (.cc 1 21)
  else if name = "eq_low_knob_1" then some (.cc 1 22)
  else none

/-- `MidiController.process_event`: nothing is sent when the port is closed
or the event's region name has no mapping entry; a button event on a `note`
entry sends `[0x90 + (channel-1), note, velocity]` with velocity 127 for
`pressed` and 0 for `released`; a fader event on a `cc` entry sends
`[0xB0 + (channel-1), control, value]`; any type mismatch sends nothing. -/
def process_event (port_open : Bool) (mapping : String → Option MapEntry)
    (e : Event) : Option (List Int) :=
  if port_open = false then none
  else
    match mapping e.name with
    | none => none
    | some m =>
      match e, m with
      | .button _ s, .note ch note =>
        some [0x90 + (ch - 1), note, if s = .pressed then 127 else 0]
      | .fader _ v, .cc ch ctl => some [0xB0 + (ch - 1), ctl, v]
      | _, _ => none

/-- A 3×3 projective transform, kept abstract (its coefficients are never
inspected by the logic under verification). -/
abbrev Homography := List (List ℚ)

/-- A detected calibration marker: centroid and area. -/
structure Marker where
  cX : ℚ
  cY : ℚ
  area : ℚ
deriving DecidableEq, Repr

/-- The calibrator's stored state: the homography, present only after a
successful calibration. -/
structure Calib where
  homography : Option Homography
deriving DecidableEq, Repr

/-- Modelled from the spec: `modules/calibration.py` is imported by
src/app/main.py but absent from the snapshot.  Per §4.2,
`calculate_homography` requires exactly four detected markers (more or fewer
is a failure with no transform stored), estimates the perspective transform
from the four ordered centroids, treats any degenerate configuration as a
failure, and on success stores the transform and returns true; per §7 a
failure leaves the prior homography untouched.  The marker detection and
the numerical estimation (which may fail on degenerate geometry) are
parameters. -/
def calculate_homography (estimate : List Marker → Option Homography)
    (st : Calib) (markers : List Marker) : Calib × Bool :=
  if markers.length = 4 then
    match estimate markers with
    | some hg => ({ homography := some hg }, true)
    | none => (st, false)
  else (st, false)

/-- Modelled from the spec: `apply_correction` (§4.2) warps the raw frame
with the stored transform and returns no result when not calibrated.  The
warp itself is a parameter. -/
def apply_correction {α : Type} (warp : Homography → α → Frame) (st : Calib)
    (f : α) : Option Frame :=
  match st.homography with
  | none => none
  | some hg => some (warp hg f)

/-- The slice of `App` state that `App.calibrate` touches: the calibrator's
stored homography, the `is_calibrated` flag, and the tracker's control
states. -/
structure AppState where
  calib : Calib
  is_calibrated : Bool
  states : String → CtlState

/-- `App.calibrate` (src/app/main.py lines 66-80): grab a frame (no frame
means nothing happens); on a successful `calculate_homography` set
`is_calibrated`, rectify the frame and refresh the button reference
brightnesses; on failure clear `is_calibrated` and report — the calibrator's
stored homography is whatever `calculate_homography` left it. -/
def app_calibrate {α : Type} (detect : α → List Marker)
    (estimate : List Marker → Option Homography) (warp : Homography → α → Frame)
    (rois : List (String × Roi)) (app : AppState) (frame : Option α) : AppState :=
  match frame with
  | none => app
  | some f =>
    let r := calculate_homography estimate app.calib (detect f)
    if r.2 then
      let app2 : AppState := { calib := r.1, is_calibrated := true, states := app.states }
      match apply_correction warp r.1 f with
      | some cf => { app2 with states := update_reference_brightness cf rois app2.states }
      | none => app2
    else { calib := r.1, is_calibrated := false, states := app.states }

/-- The value a fader region's detection maps to on one frame, when detection
succeeds: the `[0,127]` image of the largest contour's centroid row. -/
def fader_mapped_value (fader_height : Int) (contours : List Blob) : Option Int :=
  match contours with
  | [] => none
  | c0 :: rest =>
    let c := maxByArea c0 rest
    if c.m00 = 0 then none
    else some (interp0127 (truncInt (c.m01 / c.m00)) fader_height)

/-- Detection failure for a fader region: no contour at all, or the largest
contour has a zero `m00` moment. -/
def fader_detect_fails (contours : List Blob) : Bool :=
  match contours with
  | [] => true
  | c0 :: rest => decide ((maxByArea c0 rest).m00 = 0)

lemma truncInt_of_nonneg (q : ℚ) (h : 0 ≤ q) : truncInt q = ⌊q⌋ := by
  simp [truncInt, h]


/-- C1: for every fader region, the detected centroid row is mapped linearly
from the region's pixel extent `[0, H]` to an integer in `[0,127]`, clamped
to those bounds: the very top of the extent maps to 0, the very bottom to
127, the midpoint to 63, and in between the value is the (truncated) linear
interpolation `⌊127·cY/H⌋`. -/
theorem C1_fader_linear_mapping (H : Int) (hH : 0 < H) :
    interp0127 0 H = 0 ∧
    interp0127 H H = 127 ∧
    (∀ cY : Int, 0 ≤ interp0127 cY H ∧ interp0127 cY H ≤ 127) ∧
    (∀ cY : Int, 0 ≤ cY → cY ≤ H →
      interp0127 cY H = ⌊(127 * cY : ℚ) / (H : ℚ)⌋) ∧
    (∀ m : Int, H = 2 * m → interp0127 m H = 63) := by
  have hH0 : (H : ℚ) ≠ 0 := by exact_mod_cast hH.ne.symm
  have hHq : (0 : ℚ) < (H : ℚ) := by exact_mod_cast hH
  refine ⟨?_, ?_, ?_, ?_, ?_⟩
  · simp [interp0127]
  · rw [interp0127, if_neg (by omega), if_pos le_rfl]
  · intro cY
    rw [interp0127]
    split_ifs with h1 h2
    · norm_num
    · norm_num
    · push_neg at h1 h2
      have hq0 : (0 : ℚ) ≤ (127 * cY : ℚ) / (H : ℚ) := by
        apply div_nonneg _ hHq.le
        have : (0 : ℚ) ≤ (cY : ℚ) := by exact_mod_cast h1.le
        positivity
      rw [truncInt_of_nonneg _ hq0]
      constructor
      · exact Int.floor_nonneg.mpr hq0
      · have hle : (127 * cY : ℚ) / (H : ℚ) ≤ 127 := by
          rw [div_le_iff₀ hHq]
          have : (cY : ℚ) ≤ (H : ℚ) := by exact_mod_cast h2.le
          nlinarith
        calc ⌊(127 * cY : ℚ) / (H : ℚ)⌋ ≤ ⌊(127 : ℚ)⌋ := Int.floor_le_floor hle
          _ = 127 := by norm_num
  · intro cY h0 hcH
    rw [interp0127]
    split_ifs with h1 h2
    · have : cY = 0 := le_antisymm h1 h0
      subst this
      norm_num
    · have : cY = H := le_antisymm hcH h2
      subst this
      rw [mul_div_assoc, div_self hH0, mul_one]
      norm_num
    · push_neg at h1 h2
      exact truncInt_of_nonneg _ (by positivity)
  · intro m hm
    subst hm
    have hm0 : 0 < m := by omega
    have hmq : (m : ℚ) ≠ 0 := by exact_mod_cast hm0.ne.symm
    rw [interp0127, if_neg (by omega), if_neg (by omega)]
    have : (127 * (m : ℚ)) / (((2 * m : Int) : ℚ)) = 127 / 2 := by
      push_cast
      rw [div_eq_div_iff (by positivity) (by norm_num)]
      ring
    rw [this, truncInt_of_nonneg _ (by norm_num)]
    rw [Int.floor_eq_iff]
    norm_num

/-- Witness for C1 at the crossfader's region height 50. -/
theorem C1_fader_linear_mapping_witness :
    interp0127 0 50 = 0 ∧
    interp0127 50 50 = 127 ∧
    (∀ cY : Int, 0 ≤ interp0127 cY 50 ∧ interp0127 cY 50 ≤ 127) ∧
    (∀ cY : Int, 0 ≤ cY → cY ≤ 50 →
      interp0127 cY 50 = ⌊(127 * cY : ℚ) / (50 : ℚ)⌋) ∧
    (∀ m : Int, (50 : Int) = 2 * m → interp0127 m 50 = 63) := by
  have h : (0 : Int) < 50 := by decide
  simpa using C1_fader_linear_mapping 50 h

/-- C2: the button transition rule — below threshold while not pressed flips
to pressed with exactly one `pressed` event; at or above threshold while
pressed flips to released with exactly one `released` event; no event in any
other case; and the brightness sequence `[R, R, R·F·½, R·F·½, R]` yields
exactly the events `[pressed, released]`. -/
theorem C2_button_transition_rule :
    (∀ (name : String) (tf b : ℚ) (st : ButtonCtl),
      b < st.ref_brightness * tf → st.pressed = false →
      track_button name tf b st =
        ({ st with pressed := true }, some (.button name .pressed))) ∧
    (∀ (name : String) (tf b : ℚ) (st : ButtonCtl),
      st.ref_brightness * tf ≤ b → st.pressed = true →
      track_button name tf b st =
        ({ st with pressed := false }, some (.button name .released))) ∧
    (∀ (name : String) (tf b : ℚ) (st : ButtonCtl),
      (b < st.ref_brightness * tf ↔ st.pressed = true) →
      track_button name tf b st = (st, none)) ∧
    (∀ (name : String) (R F : ℚ), 0 < R → 0 < F → F < 1 →
      (run_button name F { pressed := false, ref_brightness := R }
        [R, R, R * F * (1/2), R * F * (1/2), R]).2 =
      [.button name .pressed, .button name .released]) := by
  refine ⟨?_, ?_, ?_, ?_⟩
  · intro name tf b st h1 h2
    rw [track_button, if_pos ⟨h1, h2⟩]
  · intro name tf b st h1 h2
    have hnc : ¬(b < st.ref_brightness * tf ∧ st.pressed = false) := by
      rintro ⟨_, hp⟩
      rw [h2] at hp
      simp at hp
    rw [track_button, if_neg hnc, if_pos ⟨h1, h2⟩]
  · intro name tf b st hiff
    have h1 : ¬(b < st.ref_brightness * tf ∧ st.pressed = false) := by
      rintro ⟨hlt, hp⟩
      exact absurd (hiff.mp hlt) (by simp [hp])
    have h2 : ¬(st.ref_brightness * tf ≤ b ∧ st.pressed = true) := by
      rintro ⟨hle, hp⟩
      exact absurd (hiff.mpr hp) (not_lt.mpr hle)
    rw [track_button, if_neg h1, if_neg h2]
  · intro name R F hR hF hF1
    have hRF_lt : R * F < R := by nlinarith
    have hhalf : R * F * (1/2) < R * F := by nlinarith
    have t1 : track_button name F R ⟨false, R⟩ = (⟨false, R⟩, none) := by
      rw [track_button,
        if_neg (fun hc => absurd hc.1 (not_lt.mpr hRF_lt.le)),
        if_neg (fun hc => Bool.noConfusion hc.2)]
    have t2 : track_button name F (R * F * (1/2)) ⟨false, R⟩ =
        (⟨true, R⟩, some (.button name .pressed)) := by
      rw [track_button, if_pos ⟨hhalf, rfl⟩]
    have t3 : track_button name F (R * F * (1/2)) ⟨true, R⟩ = (⟨true, R⟩, none) := by
      rw [track_button,
        if_neg (fun hc => Bool.noConfusion hc.2),
        if_neg (fun hc => absurd hc.1 (not_le.mpr hhalf))]
    have t4 : track_button name F R ⟨true, R⟩ =
        (⟨false, R⟩, some (.button name .released)) := by
      rw [track_button,
        if_neg (fun hc => Bool.noConfusion hc.2),
        if_pos ⟨hRF_lt.le, rfl⟩]
    simp only [run_button, t1, t2, t3, t4, Option.toList]
    rfl

/-- Witness for C2 with the source's reference brightness 128 and default
threshold factor 0.7. -/
theorem C2_button_transition_rule_witness :
    (run_button "play_button_1" (7/10) { pressed := false, ref_brightness := 128 }
      [128, 128, 128 * (7/10) * (1/2), 128 * (7/10) * (1/2), 128]).2 =
    [.button "play_button_1" .pressed, .button "play_button_1" .released] :=
  C2_button_transition_rule.2.2.2 "play_button_1" 128 (7/10)
    (by norm_num) (by norm_num) (by norm_num)

/-- `track_fader` factored through `fader_mapped_value`: a failed detection
leaves the state alone with no event, and a successful detection emits
exactly when the mapped value differs from the stored one. -/
lemma track_fader_eq (name : String) (H : Int) (cs : List Blob) (st : FaderCtl) :
    track_fader name H cs st =
      match fader_mapped_value H cs with
      | none => (st, none)
      | some v => if v ≠ st.value then (⟨v⟩, some (.fader name v)) else (st, none) := by
  cases cs with
  | nil => rfl
  | cons c0 rest =>
    simp only [track_fader, fader_mapped_value]
    by_cases h0 : (maxByArea c0 rest).m00 = 0
    · simp [h0]
    · simp [h0]

/-- Concrete detection: a single blob of area moments `m00 = 1`, `m01 = 64`
in a region of height 127 maps to value 64. -/
lemma fader_mapped_value_64 : fader_mapped_value 127 [⟨1, 1, 64⟩] = some 64 := by
  have hcY64 : truncInt ((64 : ℚ) / 1) = 64 := by
    rw [truncInt_of_nonneg _ (by norm_num)]
    norm_num
  have hmap64 : interp0127 64 127 = 64 := by
    rw [interp0127, if_neg (by decide), if_neg (by decide)]
    have hq : (127 * ((64 : Int) : ℚ)) / ((127 : Int) : ℚ) = 64 := by
      push_cast
      norm_num
    rw [hq, truncInt_of_nonneg _ (by norm_num)]
    norm_num
  simp only [fader_mapped_value, maxByArea]
  rw [if_neg (by norm_num : ¬((⟨1, 1, 64⟩ : Blob).m00 = 0))]
  rw [show ((⟨1, 1, 64⟩ : Blob).m01 / (⟨1, 1, 64⟩ : Blob).m00 : ℚ) = (64 : ℚ) / 1 from by norm_num]
  rw [hcY64, hmap64]

/-- C3: a fader event is emitted only when the newly mapped value differs
from the stored value, the stored value is updated to the emitted value on
emission and left untouched otherwise, and three consecutive frames all
mapping to 64 yield exactly one fader event. -/
theorem C3_fader_dedup :
    (∀ (name : String) (H : Int) (cs : List Blob) (st : FaderCtl),
      track_fader name H cs st = (st, none) ∨
      ∃ v, v ≠ st.value ∧
        track_fader name H cs st = (⟨v⟩, some (.fader name v))) ∧
    (∀ (name : String) (H : Int) (cs : List Blob) (st : FaderCtl),
      fader_mapped_value H cs = some st.value →
      track_fader name H cs st = (st, none)) ∧
    (∀ (name : String) (H : Int) (cs : List Blob) (st : FaderCtl) (v : Int),
      fader_mapped_value H cs = some v → v ≠ st.value →
      track_fader name H cs st = (⟨v⟩, some (.fader name v))) ∧
    (run_fader "crossfader" 127 ⟨0⟩
        [[⟨1, 1, 64⟩], [⟨1, 1, 64⟩], [⟨1, 1, 64⟩]]).2 =
      [.fader "crossfader" 64] := by
  refine ⟨?_, ?_, ?_, ?_⟩
  · intro name H cs st
    rcases hm : fader_mapped_value H cs with _ | v
    · left
      rw [track_fader_eq, hm]
    · by_cases hv : v = st.value
      · left
        rw [track_fader_eq, hm]
        simp [hv]
      · right
        exact ⟨v, hv, by rw [track_fader_eq, hm]; simp [hv]⟩
  · intro name H cs st h
    rw [track_fader_eq, h]
    simp
  · intro name H cs st v h hv
    rw [track_fader_eq, h]
    simp [hv]
  · have s1 : track_fader "crossfader" 127 [⟨1, 1, 64⟩] ⟨0⟩ =
        (⟨64⟩, some (.fader "crossfader" 64)) := by
      rw [track_fader_eq, fader_mapped_value_64]
      norm_num
    have s2 : track_fader "crossfader" 127 [⟨1, 1, 64⟩] ⟨64⟩ = (⟨64⟩, none) := by
      rw [track_fader_eq, fader_mapped_value_64]
      norm_num
    simp only [run_fader, s1, s2, Option.toList]
    rfl

/-- Witness for C3: a frame whose mapped value equals the stored value 64
emits nothing and leaves the state untouched. -/
theorem C3_fader_dedup_witness :
    track_fader "volume_fader_1" 127 [⟨1, 1, 64⟩] ⟨64⟩ = (⟨64⟩, none) :=
  C3_fader_dedup.2.1 "volume_fader_1" 127 [⟨1, 1, 64⟩] ⟨64⟩ fader_mapped_value_64

/-- C4: a mapped button event always produces the note-on status byte
`0x90 + (channel-1)` — velocity 127 for `pressed` and velocity 0 (not a
distinct message type) for `released` — and a mapped fader event produces a
control-change message `0xB0 + (channel-1)` carrying the event's value on
the mapped controller number. -/
theorem C4_protocol_mapping (mapping : String → Option MapEntry) (name : String)
    (ch ident v : Int) :
    (mapping name = some (.note ch ident) →
      process_event true mapping (.button name .pressed) =
        some [0x90 + (ch - 1), ident, 127] ∧
      process_event true mapping (.button name .released) =
        some [0x90 + (ch - 1), ident, 0]) ∧
    (mapping name = some (.cc ch ident) →
      process_event true mapping (.fader name v) =
        some [0xB0 + (ch - 1), ident, v]) := by
  constructor
  · intro h
    constructor <;> simp [process_event, Event.name, h]
  · intro h
    simp [process_event, Event.name, h]

/-- Witness for C4 on the default mapping: `play_button_1` (note 60,
channel 1) and `crossfader` (controller 10, channel 1). -/
theorem C4_protocol_mapping_witness :
    process_event true default_mapping (.button "play_button_1" .pressed) =
      some [0x90 + (1 - 1), 60, 127] ∧
    process_event true default_mapping (.button "play_button_1" .released) =
      some [0x90 + (1 - 1), 60, 0] ∧
    process_event true default_mapping (.fader "crossfader" 64) =
      some [0xB0 + (1 - 1), 10, 64] :=
  ⟨((C4_protocol_mapping default_mapping "play_button_1" 1 60 0).1 (by decide)).1,
   ((C4_protocol_mapping default_mapping "play_button_1" 1 60 0).1 (by decide)).2,
   (C4_protocol_mapping default_mapping "crossfader" 1 10 64).2 (by decide)⟩

lemma track_fader_none (name : String) (H : Int) (cs : List Blob) (st : FaderCtl)
    (h : fader_mapped_value H cs = none) : track_fader name H cs st = (st, none) := by
  rw [track_fader_eq, h]

lemma track_fader_some (name : String) (H : Int) (cs : List Blob) (st : FaderCtl)
    (v : Int) (h : fader_mapped_value H cs = some v) :
    track_fader name H cs st =
      if v ≠ st.value then (⟨v⟩, some (.fader name v)) else (st, none) := by
  rw [track_fader_eq, h]

lemma track_button_snd_name (name : String) (tf b : ℚ) (st : ButtonCtl) :
    ∀ e, (track_button name tf b st).2 = some e → e.name = name := by
  intro e h
  rw [track_button] at h
  split_ifs at h
  · obtain rfl := (Option.some.inj h).symm
    rfl
  · obtain rfl := (Option.some.inj h).symm
    rfl

lemma track_fader_snd_name (name : String) (H : Int) (cs : List Blob) (st : FaderCtl) :
    ∀ e, (track_fader name H cs st).2 = some e → e.name = name := by
  intro e h
  rcases hm : fader_mapped_value H cs with _ | v
  · rw [track_fader_none name H cs st hm] at h
    exact Option.noConfusion h
  · rw [track_fader_some name H cs st v hm] at h
    split_ifs at h
    obtain rfl := (Option.some.inj h).symm
    rfl

/-- Any event a region's step emits carries that region's name. -/
lemma process_region_event_name (frame : Frame) (states : String → CtlState)
    (name : String) (roi : Roi) :
    ∀ e, (process_region frame states name roi).2 = some e → e.name = name := by
  intro e h
  unfold process_region at h
  split_ifs at h
  · rcases hs : states name with b | f | ⟨a, p⟩ | _ <;> rw [hs] at h
    · exact track_button_snd_name name (7/10) (frame.brightness roi) b e h
    · exact Option.noConfusion h
    · exact Option.noConfusion h
    · exact Option.noConfusion h
  · rcases hs : states name with b | f | ⟨a, p⟩ | _ <;> rw [hs] at h
    · exact Option.noConfusion h
    · exact track_fader_snd_name name roi.h (frame.contours roi) f e h
    · exact Option.noConfusion h
    · exact Option.noConfusion h

/-- The names of the events `process_frame` returns form a subsequence of
the configured region names, in configuration order. -/
lemma process_frame_names_sublist (frame : Frame) (rois : List (String × Roi))
    (states : String → CtlState) :
    List.Sublist (((process_frame frame rois states).2).map Event.name)
      (rois.map Prod.fst) := by
  induction rois generalizing states with
  | nil => simp [process_frame]
  | cons p rest ih =>
    obtain ⟨name, roi⟩ := p
    simp only [process_frame, List.map_cons]
    rcases h : (process_region frame states name roi).2 with _ | e
    · simp only [Option.toList, List.nil_append]
      exact List.Sublist.cons name (ih _)
    · simp only [Option.toList, List.singleton_append, List.map_cons]
      rw [process_region_event_name frame states name roi e h]
      exact List.Sublist.cons₂ name (ih _)

/-- C5: `process_frame` iterates the regions in configuration order, so the
returned event list's region names are a subsequence of the configured
region names in configuration order, and every event comes from a
configured region. -/
theorem C5_event_order (frame : Frame) (rois : List (String × Roi))
    (states : String → CtlState) :
    List.Sublist (((process_frame frame rois states).2).map Event.name)
      (rois.map Prod.fst) ∧
    ∀ e ∈ (process_frame frame rois states).2, ∃ p ∈ rois, e.name = p.1 := by
  refine ⟨process_frame_names_sublist frame rois states, ?_⟩
  intro e he
  have h1 : e.name ∈ ((process_frame frame rois states).2).map Event.name :=
    List.mem_map_of_mem _ he
  have h2 := (process_frame_names_sublist frame rois states).subset h1
  obtain ⟨p, hp, hpe⟩ := List.mem_map.mp h2
  exact ⟨p, hp, hpe.symm⟩

/-- A frame on which nothing is detected: all regions fully bright, no
marker-color contours anywhere. -/
def emptyFrame : Frame :=
  { brightness := fun _ => 200, contours := fun _ => [] }

/-- Witness for C5 on the configured ROI list of src/app/main.py. -/
theorem C5_event_order_witness :
    List.Sublist
      (((process_frame emptyFrame
          [("play_button_1", ⟨50, 100, 80, 80⟩), ("play_button_2", ⟨670, 100, 80, 80⟩),
           ("crossfader", ⟨250, 450, 300, 50⟩), ("volume_fader_1", ⟨120, 200, 50, 200⟩),
           ("volume_fader_2", ⟨630, 200, 50, 200⟩)] init_control_state).2).map Event.name)
      ([("play_button_1", (⟨50, 100, 80, 80⟩ : Roi)), ("play_button_2", ⟨670, 100, 80, 80⟩),
        ("crossfader", ⟨250, 450, 300, 50⟩), ("volume_fader_1", ⟨120, 200, 50, 200⟩),
        ("volume_fader_2", ⟨630, 200, 50, 200⟩)].map Prod.fst) ∧
    ∀ e ∈ (process_frame emptyFrame
          [("play_button_1", ⟨50, 100, 80, 80⟩), ("play_button_2", ⟨670, 100, 80, 80⟩),
           ("crossfader", ⟨250, 450, 300, 50⟩), ("volume_fader_1", ⟨120, 200, 50, 200⟩),
           ("volume_fader_2", ⟨630, 200, 50, 200⟩)] init_control_state).2,
      ∃ p ∈ [("play_button_1", (⟨50, 100, 80, 80⟩ : Roi)), ("play_button_2", ⟨670, 100, 80, 80⟩),
           ("crossfader", ⟨250, 450, 300, 50⟩), ("volume_fader_1", ⟨120, 200, 50, 200⟩),
           ("volume_fader_2", ⟨630, 200, 50, 200⟩)], e.name = p.1 :=
  C5_event_order emptyFrame
    [("play_button_1", ⟨50, 100, 80, 80⟩), ("play_button_2", ⟨670, 100, 80, 80⟩),
     ("crossfader", ⟨250, 450, 300, 50⟩), ("volume_fader_1", ⟨120, 200, 50, 200⟩),
     ("volume_fader_2", ⟨630, 200, 50, 200⟩)] init_control_state

/-- C6: a calibration attempt with a marker count other than four, or with
degenerate geometry (the estimator fails), returns false, leaves the stored
homography untouched, and leaves the app with `is_calibrated` cleared but
the calibrator state exactly as before. -/
theorem C6_failed_calibration {α : Type} (detect : α → List Marker)
    (estimate : List Marker → Option Homography) (warp : Homography → α → Frame)
    (rois : List (String × Roi)) (app : AppState) (f : α)
    (h : (detect f).length ≠ 4 ∨ estimate (detect f) = none) :
    (calculate_homography estimate app.calib (detect f)).2 = false ∧
    (calculate_homography estimate app.calib (detect f)).1 = app.calib ∧
    app_calibrate detect estimate warp rois app (some f) =
      { calib := app.calib, is_calibrated := false, states := app.states } := by
  have hc : calculate_homography estimate app.calib (detect f) = (app.calib, false) := by
    rw [calculate_homography]
    rcases h with h | h
    · rw [if_neg h]
    · by_cases h4 : (detect f).length = 4
      · rw [if_pos h4, h]
      · rw [if_neg h4]
  refine ⟨by rw [hc], by rw [hc], ?_⟩
  simp only [app_calibrate, hc]
  rw [if_neg (by simp)]

/-- Witness for C6: a detection returning no markers fails and leaves a
previously stored homography in place. -/
theorem C6_failed_calibration_witness :
    app_calibrate (fun _ : Unit => ([] : List Marker)) (fun _ => none)
        (fun _ _ => emptyFrame) []
        ⟨⟨some [[1]]⟩, true, init_control_state⟩ (some ()) =
      { calib := ⟨some [[1]]⟩, is_calibrated := false, states := init_control_state } :=
  (C6_failed_calibration (fun _ : Unit => ([] : List Marker)) (fun _ => none)
    (fun _ _ => emptyFrame) [] ⟨⟨some [[1]]⟩, true, init_control_state⟩ ()
    (Or.inl (by decide))).2.2

/-- C7: an event whose region name has no entry in the mapping table
produces no outbound message (and, the embedding being total, no error). -/
theorem C7_unmapped_ignored (port_open : Bool) (mapping : String → Option MapEntry)
    (e : Event) (h : mapping e.name = none) :
    process_event port_open mapping e = none := by
  rw [process_event]
  by_cases hp : port_open = false
  · rw [if_pos hp]
  · rw [if_neg hp, h]

/-- Witness for C7: the source's own unknown-event test case,
`{'type': 'button', 'name': 'unknown_control', 'state': 'pressed'}`. -/
theorem C7_unmapped_ignored_witness :
    process_event true default_mapping (.button "unknown_control" .pressed) = none :=
  C7_unmapped_ignored true default_mapping (.button "unknown_control" .pressed)
    (by decide)

/-- A failed fader detection (no contour, or zero `m00` on the largest one)
produces no event and leaves the fader state untouched. -/
lemma track_fader_fails (name : String) (H : Int) (cs : List Blob) (st : FaderCtl)
    (h : fader_detect_fails cs = true) : track_fader name H cs st = (st, none) := by
  apply track_fader_none
  cases cs with
  | nil => rfl
  | cons c0 rest =>
    simp only [fader_detect_fails] at h
    simp only [fader_mapped_value]
    rw [if_pos (of_decide_eq_true h)]

/-- A non-button region whose fader detection fails contributes nothing: the
state map comes back pointwise unchanged and no event is emitted. -/
lemma process_region_skip (frame : Frame) (states : String → CtlState)
    (name : String) (roi : Roi)
    (hb : strContains "button" name = false)
    (hf : fader_detect_fails (frame.contours roi) = true) :
    process_region frame states name roi = (states, none) := by
  rw [process_region, if_neg (by simp [hb])]
  by_cases h2 : strContains "fader" name = true
  · rw [if_pos h2]
    rcases hs : states name with b | f | ⟨a, p⟩ | _
    · rfl
    · simp only [track_fader_fails name roi.h (frame.contours roi) f hf]
      refine Prod.ext ?_ rfl
      funext n
      by_cases hn : n = name
      · subst hn
        simp [hs]
      · simp [hn]
    · rfl
    · rfl
  · rw [if_neg h2]

/-- Dropping a failing region from the middle of the configuration changes
nothing about a frame's processing. -/
lemma process_frame_skip (frame : Frame) (name : String) (roi : Roi)
    (pre post : List (String × Roi)) (states : String → CtlState)
    (hb : strContains "button" name = false)
    (hf : fader_detect_fails (frame.contours roi) = true) :
    process_frame frame (pre ++ (name, roi) :: post) states =
      process_frame frame (pre ++ post) states := by
  induction pre generalizing states with
  | nil =>
    simp only [List.nil_append, process_frame]
    rw [process_region_skip frame states name roi hb hf]
    simp [Option.toList]
  | cons q rest ih =>
    obtain ⟨n2, r2⟩ := q
    simp only [List.cons_append, process_frame]
    simp only [List.append_eq]
    rw [ih]

/-- C8: a fader region with no segmented blob or a zero-area largest blob
contributes no event for the frame, its state is untouched, and the rest of
the regions are processed exactly as if the failing region were absent —
`process_frame` (total by construction) lets no per-region extraction
failure escape. -/
theorem C8_extraction_failure_degrades (frame : Frame) (name : String) (roi : Roi)
    (pre post : List (String × Roi)) (states : String → CtlState)
    (hb : strContains "button" name = false)
    (hf : fader_detect_fails (frame.contours roi) = true) :
    (∀ st : FaderCtl, track_fader name roi.h (frame.contours roi) st = (st, none)) ∧
    process_region frame states name roi = (states, none) ∧
    process_frame frame (pre ++ (name, roi) :: post) states =
      process_frame frame (pre ++ post) states :=
  ⟨fun st => track_fader_fails name roi.h (frame.contours roi) st hf,
   process_region_skip frame states name roi hb hf,
   process_frame_skip frame name roi pre post states hb hf⟩

/-- Witness for C8: `volume_fader_1` sees no contour on a clean frame and
the two neighbouring regions are processed exactly as without it. -/
theorem C8_extraction_failure_degrades_witness :
    (∀ st : FaderCtl,
      track_fader "volume_fader_1" (⟨120, 200, 50, 200⟩ : Roi).h
        (emptyFrame.contours ⟨120, 200, 50, 200⟩) st = (st, none)) ∧
    process_region emptyFrame init_control_state "volume_fader_1" ⟨120, 200, 50, 200⟩ =
      (init_control_state, none) ∧
    process_frame emptyFrame
        ([("play_button_1", ⟨50, 100, 80, 80⟩)] ++
          ("volume_fader_1", (⟨120, 200, 50, 200⟩ : Roi)) ::
            [("crossfader", ⟨250, 450, 300, 50⟩)]) init_control_state =
      process_frame emptyFrame
        ([("play_button_1", ⟨50, 100, 80, 80⟩)] ++ [("crossfader", ⟨250, 450, 300, 50⟩)])
        init_control_state :=
  C8_extraction_failure_degrades emptyFrame "volume_fader_1" ⟨120, 200, 50, 200⟩
    [("play_button_1", ⟨50, 100, 80, 80⟩)] [("crossfader", ⟨250, 450, 300, 50⟩)]
    init_control_state (by decide) (by decide)

/-- The events of one button region strictly alternate; the flag records
which state the next event must carry. -/
def alternating (name : String) : Bool → List Event → Prop
  | _, [] => True
  | expectPressed, e :: rest =>
    e = .button name (if expectPressed then .pressed else .released) ∧
    alternating name (!expectPressed) rest

/-- Whether the last event of the list is a `pressed` button event, with a
default for the empty list. -/
def lastPressed (dflt : Bool) : List Event → Bool
  | [] => dflt
  | e :: rest =>
    lastPressed (match e with | .button _ .pressed => true | _ => false) rest

/-- `track_button` either does nothing, or flips an unpressed state to
pressed with a `pressed` event, or flips a pressed state to released with a
`released` event. -/
lemma track_button_cases (name : String) (tf b : ℚ) (st : ButtonCtl) :
    track_button name tf b st = (st, none) ∨
    (st.pressed = false ∧ track_button name tf b st =
      ({ st with pressed := true }, some (.button name .pressed))) ∨
    (st.pressed = true ∧ track_button name tf b st =
      ({ st with pressed := false }, some (.button name .released))) := by
  rw [track_button]
  split_ifs with h1 h2
  · exact Or.inr (Or.inl ⟨h1.2, rfl⟩)
  · exact Or.inr (Or.inr ⟨h2.2, rfl⟩)
  · exact Or.inl rfl

/-- Over any brightness sequence, a button region's events alternate
(starting with the state opposite to the current flag), and the final
pressed flag equals whether the last emitted event was `pressed`. -/
lemma run_button_invariant (name : String) (tf : ℚ) (st : ButtonCtl) (bs : List ℚ) :
    alternating name (!st.pressed) (run_button name tf st bs).2 ∧
    (run_button name tf st bs).1.pressed =
      lastPressed st.pressed (run_button name tf st bs).2 := by
  induction bs generalizing st with
  | nil => exact ⟨trivial, rfl⟩
  | cons b rest ih =>
    simp only [run_button]
    rcases track_button_cases name tf b st with h | ⟨hp, h⟩ | ⟨hp, h⟩
    · rw [h]
      simp only [Option.toList, List.nil_append]
      exact ih st
    · rw [h]
      simp only [Option.toList, List.singleton_append]
      constructor
      · rw [hp]
        simp only [alternating, Bool.not_false, Bool.not_true]
        refine ⟨rfl, ?_⟩
        have ha := (ih { st with pressed := true }).1
        simpa using ha
      · exact (ih { st with pressed := true }).2
    · rw [h]
      simp only [Option.toList, List.singleton_append]
      constructor
      · rw [hp]
        simp only [alternating, Bool.not_false, Bool.not_true]
        refine ⟨rfl, ?_⟩
        have ha := (ih { st with pressed := false }).1
        simpa using ha
      · exact (ih { st with pressed := false }).2

/-- C9: starting from the initial button state (`pressed = False`, fixed at
initialization for every button region), the events of one button region
strictly alternate `pressed, released, pressed, ...` beginning with
`pressed`, and after any sequence of frames the pressed flag equals whether
the region's last emitted event was `pressed`. -/
theorem C9_button_alternation (name : String) (tf R : ℚ) (bs : List ℚ) :
    alternating name true (run_button name tf ⟨false, R⟩ bs).2 ∧
    (run_button name tf ⟨false, R⟩ bs).1.pressed =
      lastPressed false (run_button name tf ⟨false, R⟩ bs).2 ∧
    (∀ nm, strContains "button" nm = true →
      init_control_state nm = .button ⟨false, 128⟩) := by
  refine ⟨?_, (run_button_invariant name tf ⟨false, R⟩ bs).2, ?_⟩
  · have h := (run_button_invariant name tf ⟨false, R⟩ bs).1
    simpa using h
  · intro nm h
    rw [init_control_state, if_pos h]

/-- Witness for C9: a press then release on `play_button_1`, brightnesses
50 (below 128·0.7) then 200. -/
theorem C9_button_alternation_witness :
    alternating "play_button_1" true
      (run_button "play_button_1" (7/10) ⟨false, 128⟩ [50, 200]).2 :=
  (C9_button_alternation "play_button_1" (7/10) 128 [50, 200]).1

/-- The first event a fader region ever emits carries a value different from
the initially stored one. -/
lemma run_fader_first_event (name : String) (H : Int) (st : FaderCtl)
    (frames : List (List Blob)) :
    ∀ e, (run_fader name H st frames).2.head? = some e →
      ∃ v, e = .fader name v ∧ v ≠ st.value := by
  induction frames generalizing st with
  | nil =>
    intro e h
    simp [run_fader] at h
  | cons cs rest ih =>
    intro e h
    simp only [run_fader] at h
    rcases hm : fader_mapped_value H cs with _ | v
    · rw [track_fader_none name H cs st hm] at h
      simp only [Option.toList, List.nil_append] at h
      exact ih st e h
    · by_cases hv : v = st.value
      · rw [track_fader_some name H cs st v hm, if_neg (by simp [hv])] at h
        simp only [Option.toList, List.nil_append] at h
        exact ih st e h
      · rw [track_fader_some name H cs st v hm, if_pos hv] at h
        simp only [Option.toList, List.singleton_append, List.head?_cons] at h
        exact ⟨v, (Option.some.inj h).symm, hv⟩

/-- C10: every fader region's stored value starts at 0, a first frame whose
marker maps to 0 emits nothing, and the first fader event a region ever
emits carries a nonzero value. -/
theorem C10_fader_initial_zero :
    (∀ nm, strContains "button" nm = false → strContains "fader" nm = true →
      init_control_state nm = .fader ⟨0⟩) ∧
    (∀ (name : String) (H : Int) (cs : List Blob),
      fader_mapped_value H cs = some 0 →
      track_fader name H cs ⟨0⟩ = (⟨0⟩, none)) ∧
    (∀ (name : String) (H : Int) (frames : List (List Blob)) (e : Event),
      (run_fader name H ⟨0⟩ frames).2.head? = some e →
      ∃ v, e = .fader name v ∧ v ≠ 0) := by
  refine ⟨?_, ?_, ?_⟩
  · intro nm hb hf
    rw [init_control_state, if_neg (by simp [hb]), if_pos hf]
  · intro name H cs h
    rw [track_fader_some name H cs ⟨0⟩ 0 h]
    simp
  · intro name H frames e h
    exact run_fader_first_event name H ⟨0⟩ frames e h

/-- Concrete detection mapping to value 0: a blob with `m00 = 1`, `m01 = 0`
has centroid row 0, which the linear map sends to 0. -/
lemma fader_mapped_value_zero : fader_mapped_value 127 [⟨1, 1, 0⟩] = some 0 := by
  simp only [fader_mapped_value, maxByArea]
  rw [if_neg (by norm_num : ¬((⟨1, 1, 0⟩ : Blob).m00 = 0))]
  rw [show ((⟨1, 1, 0⟩ : Blob).m01 / (⟨1, 1, 0⟩ : Blob).m00 : ℚ) = 0 from by norm_num]
  rw [show truncInt (0 : ℚ) = 0 from by rw [truncInt_of_nonneg _ le_rfl]; norm_num]
  rfl

/-- Witness for C10: a first frame mapping to value 0 emits no event from
the freshly initialized fader state. -/
theorem C10_fader_initial_zero_witness :
    track_fader "volume_fader_2" 127 [⟨1, 1, 0⟩] ⟨0⟩ = (⟨0⟩, none) :=
  C10_fader_initial_zero.2.1 "volume_fader_2" 127 [⟨1, 1, 0⟩] fader_mapped_value_zero
